import Mathlib

/-!
Verification of the `lolb` reverse load balancer core against its design
specification.

This file shallowly embeds the parts of the Rust source that the checked
properties are about:

* `src/peek.rs`   — the `Peekable` look-ahead buffer (`peek`, `poll_read`);
* `src/chunked.rs`— the chunked transfer-encoding decoder and encoder;
* `src/http11.rs` — the header normalization performed after a successful
  `httparse` parse (Transfer-Encoding stripping, Content-Length reading,
  body-mode selection, lines 55–77);
* `src/service.rs`— the routing registry (`Services::route`,
  `add_preauthed`) and the preauth record (`PreAuthed::is_valid` from
  `src/serv_auth.rs`);
* `src/persist.rs`— `load_preauthed` over an abstract store;
* `src/lib.rs`    — the connection dispatcher (`handle_incoming`) and the
  service-auth check in the HTTP/2 stream loop of `handle_client`.

Rust `String`/`&str` values are modelled as `List Char`, byte streams as
`List Nat` (each element one octet).  Asynchronous reads are modelled
deterministically: a read for `n` bytes returns `min n remaining` bytes of
the underlying stream (a legal behaviour of any `AsyncRead`), and `0` only
at end of stream.
-/

namespace Lolb

/-- Shorthand turning a string literal into the `List Char` model of a Rust
`String`. -/
def str (s : String) : List Char := s.toList

/-- Rust `str::ends_with(pat)`: the receiver ends with the pattern. -/
def ends_with (s pat : List Char) : Bool :=
  s.drop (s.length - pat.length) == pat && decide (pat.length ≤ s.length)

/-- Rust `str::starts_with(pat)`: the receiver starts with the pattern. -/
def starts_with (s pat : List Char) : Bool :=
  s.take pat.length == pat

/-- Rust `str::to_ascii_lowercase`. -/
def to_ascii_lowercase (s : List Char) : List Char :=
  s.map Char.toLower

/-- Rust `char::is_whitespace` restricted to ASCII characters (the only ones
that can appear where we use it, see `bytes_to_utf8`). -/
def is_rust_whitespace (c : Char) : Bool :=
  c.toNat == 9 || c.toNat == 10 || c.toNat == 11 || c.toNat == 12 ||
  c.toNat == 13 || c.toNat == 32

/-- Rust `str::trim`. -/
def trim_chars (s : List Char) : List Char :=
  ((s.dropWhile is_rust_whitespace).reverse.dropWhile is_rust_whitespace).reverse

/-! ## `src/peek.rs` — the `Peekable` wrapper

`Peekable` holds the not-yet-consumed remainder of the underlying stream
(`wrapped`) and the internal look-ahead buffer (`buffered`, a `BytesMut`). -/

structure Peekable where
  wrapped : List Nat
  buffered : List Nat
deriving DecidableEq

/-- Writing `src` into the byte slice `l[start .. start + src.length]`,
as `AsyncReadExt::read(&mut self.wrapped, &mut self.buffered[total..])`
does when it returns `src.length` bytes. -/
def setRange (l : List Nat) (start : Nat) (src : List Nat) : List Nat :=
  l.take start ++ src ++ l.drop (start + src.length)

/-- The fill loop of `Peekable::peek` (peek.rs lines 40–50).  One iteration
reads up to `n - total` bytes from the wrapped stream (our deterministic
read model returns `min (n - total) wrapped.length` bytes), writes them at
offset `total` of the buffer, and stops on end-of-stream, on a satisfied
`is_enough` predicate, or once `total` reaches `n`.  `fuel` only bounds the
recursion; every iteration that recurses strictly increases `total`, so any
`fuel > n` is ample. -/
def peekFill (is_enough : List Nat → Bool) :
    Nat → List Nat → List Nat → Nat → Nat → List Nat × List Nat × Nat
  | 0, w, b, total, _ => (w, b, total)
  | fuel + 1, w, b, total, n =>
    if total < n then
      let chunk := w.take (n - total)
      if chunk.length = 0 then (w, b, total)
      else
        let w2 := w.drop (n - total)
        let b2 := setRange b total chunk
        let total2 := total + chunk.length
        if is_enough (b2.take total2) then (w2, b2, total2)
        else peekFill is_enough fuel w2 b2 total2 n
    else (w, b, total)

/-- `Peekable::peek(buf, is_enough)` for a caller buffer of length `n`
(peek.rs lines 27–56).  Returns the peeked bytes (`buf[0..total]`, the
value copied out to the caller) and the state after the call.  Note:
`buffered` is resized up to `n` with `0x0` fill before the loop and is
never truncated back to `total` afterwards. -/
def Peekable.peek (p : Peekable) (n : Nat) (is_enough : List Nat → Bool) :
    List Nat × Peekable :=
  let total0 := p.buffered.length
  let b0 := if p.buffered.length < n
    then p.buffered ++ List.replicate (n - p.buffered.length) 0
    else p.buffered
  let r := peekFill is_enough (n + 1) p.wrapped b0 total0 n
  ((r.2.1).take r.2.2, { wrapped := r.1, buffered := r.2.1 })

/-- `Peekable::poll_read` for a caller buffer of length `n` (peek.rs lines
65–82): drain the internal buffer first, otherwise delegate to the wrapped
stream.  Returns the bytes delivered to the caller and the new state. -/
def Peekable.poll_read (p : Peekable) (n : Nat) : List Nat × Peekable :=
  if p.buffered.isEmpty then
    (p.wrapped.take n, { wrapped := p.wrapped.drop n, buffered := p.buffered })
  else
    let m := min p.buffered.length n
    (p.buffered.take m, { wrapped := p.wrapped, buffered := p.buffered.drop m })

/-! ## `src/chunked.rs` — chunked transfer-encoding codec -/

/-- `MAX_READ_SIZE` (chunked.rs line 13). -/
def MAX_READ_SIZE : Nat := 1024 * 1024

/-- Rust `char::is_numeric` on a byte promoted to a `char` (chunked.rs line
57): true for the Unicode categories Nd/Nl/No, which in the byte range
U+0000–U+00FF are the ASCII digits and the Latin-1 characters
`² ³ ¹ ¼ ½ ¾` (178, 179, 185, 188, 189, 190).  Note hex digits `a`–`f` are
NOT numeric. -/
def is_numeric_byte (b : Nat) : Bool :=
  (48 ≤ b && b ≤ 57) || b == 178 || b == 179 || b == 185 || b == 188 ||
  b == 189 || b == 190

/-- The size-reading loop of `read_chunk_size` (chunked.rs lines 53–60):
read one byte at a time, appending to `buf`, until a non-numeric byte is
read (that byte is also appended).  `none` models the `Err` of a read on an
ended stream. -/
def readUntilNonNumeric : List Nat → Option (List Nat × List Nat)
  | [] => none
  | b :: rest =>
    if is_numeric_byte b then
      match readUntilNonNumeric rest with
      | none => none
      | some (buf, rest2) => some (b :: buf, rest2)
    else some ([b], rest)

/-- `skip_until_lf` (chunked.rs lines 81–91): consume bytes up to and
including the first `\n`; error (`none`) if the stream ends first. -/
def skip_until_lf : List Nat → Option (List Nat)
  | [] => none
  | b :: rest => if b == 10 then some rest else skip_until_lf rest

/-- `String::from_utf8` on the chunk-size buffer.  Any byte `≥ 0x80` that
can reach the buffer (a Latin-1 numeric byte or a lone terminator byte)
makes the buffer invalid UTF-8, so validity coincides with the buffer being
pure ASCII. -/
def bytes_to_utf8 (bs : List Nat) : Option (List Char) :=
  if bs.all (fun b => b < 128) then some (bs.map Char.ofNat) else none

/-- Value of a hexadecimal digit character, as `usize::from_str_radix(_, 16)`
accepts it. -/
def hex_digit_val (c : Char) : Option Nat :=
  if 48 ≤ c.toNat && c.toNat ≤ 57 then some (c.toNat - 48)
  else if 97 ≤ c.toNat && c.toNat ≤ 102 then some (c.toNat - 87)
  else if 65 ≤ c.toNat && c.toNat ≤ 70 then some (c.toNat - 55)
  else none

/-- Value of a decimal digit character, as `str::parse::<usize>` accepts it. -/
def dec_digit_val (c : Char) : Option Nat :=
  if 48 ≤ c.toNat && c.toNat ≤ 57 then some (c.toNat - 48) else none

/-- Digit-string parsing common to `from_str_radix` and `str::parse`:
at least one digit, all characters digits of the base. -/
def parse_digits (base : Nat) (dval : Char → Option Nat) (s : List Char) :
    Option Nat :=
  if s.isEmpty then none
  else s.foldl (fun acc c => acc.bind fun a => (dval c).map fun d => a * base + d)
    (some 0)

/-- `usize::from_str_radix(s, 16)`: optional leading `+`, then hex digits.
(Overflow of the 64-bit range is not modelled; chunk sizes of interest are
tiny.) -/
def from_str_radix_16 (s : List Char) : Option Nat :=
  match s with
  | '+' :: rest => parse_digits 16 hex_digit_val rest
  | _ => parse_digits 16 hex_digit_val s

/-- `str::parse::<usize>()`: optional leading `+`, then decimal digits. -/
def parse_usize_dec (s : List Char) : Option Nat :=
  match s with
  | '+' :: rest => parse_digits 10 dec_digit_val rest
  | _ => parse_digits 10 dec_digit_val s

/-- `read_exact` of `amount` bytes (`read_amount`/`read_buf`, chunked.rs
lines 93–110): error when the stream holds fewer bytes. -/
def read_exact (amount : Nat) (input : List Nat) :
    Option (List Nat × List Nat) :=
  if amount ≤ input.length then some (input.take amount, input.drop amount)
  else none

/-- `ChunkedDecoder::read_chunk_size` (chunked.rs lines 48–78). -/
def read_chunk_size (input : List Nat) : Option (Nat × List Nat) :=
  match readUntilNonNumeric input with
  | none => none
  | some (buf, rest) =>
    match skip_until_lf rest with
    | none => none
    | some rest2 =>
      if buf.isEmpty then some (0, rest2)
      else
        match bytes_to_utf8 buf with
        | none => none
        | some s =>
          match from_str_radix_16 (trim_chars s) with
          | none => none
          | some n => some (n, rest2)

/-- Result of one `ChunkedDecoder::data_res` call. -/
inductive DataStep where
  | err : DataStep
  | eos : DataStep
  | piece : List Nat → Nat → List Nat → DataStep
deriving DecidableEq

/-- `ChunkedDecoder::data_res` (chunked.rs lines 31–45): when no bytes of
the current chunk remain, read the next chunk-size line (a zero size is end
of body), then deliver `min amount_left MAX_READ_SIZE` payload bytes and
skip through the following `\n`. -/
def data_res (amount_left : Nat) (input : List Nat) : DataStep :=
  let step := fun (al : Nat) (inp : List Nat) =>
    let to_read := min al MAX_READ_SIZE
    match read_exact to_read inp with
    | none => DataStep.err
    | some (payload, rest) =>
      match skip_until_lf rest with
      | none => DataStep.err
      | some rest2 => DataStep.piece payload (al - to_read) rest2
  if amount_left == 0 then
    match read_chunk_size input with
    | none => DataStep.err
    | some (chunk_size, rest) =>
      if chunk_size == 0 then DataStep.eos else step chunk_size rest
  else step amount_left input

/-- Repeatedly calling `data()` until end of body, concatenating the
delivered pieces; `none` when any call errors.  `fuel` bounds the number of
calls; every `piece` step consumes at least one input byte, so
`input.length + 1` calls always suffice. -/
def decodeFrom : Nat → Nat → List Nat → Option (List Nat)
  | 0, _, _ => none
  | fuel + 1, amount_left, input =>
    match data_res amount_left input with
    | DataStep.err => none
    | DataStep.eos => some []
    | DataStep.piece payload al2 rest =>
      (decodeFrom fuel al2 rest).map (payload ++ ·)

/-- The full body a fresh `ChunkedDecoder` (`amount_left = 0`) yields from
`input`, or `none` on a decode error. -/
def decode (input : List Nat) : Option (List Nat) :=
  decodeFrom (input.length + 1) 0 input

/-- `ChunkedEncoder::send_chunk` (chunked.rs lines 117–124): writes
`format!("{}\r\n", buf.len())` — the length in DECIMAL — then the payload,
then `\r\n`.  Returns the bytes written. -/
def send_chunk (buf : List Nat) : List Nat :=
  (Nat.toDigits 10 buf.length).map Char.toNat ++ [13, 10] ++ buf ++ [13, 10]

/-- `ChunkedEncoder::send_finish` (chunked.rs lines 125–129): writes
`"0\r\n\r\n"`. -/
def send_finish : List Nat := [48, 13, 10, 13, 10]

/-- The byte stream produced by `send_chunk` on each chunk in order,
followed by `send_finish`. -/
def encode (chunks : List (List Nat)) : List Nat :=
  (chunks.map send_chunk).flatten ++ send_finish

/-! ## `src/http11.rs` — header normalization after parse (lines 55–77)

`httparse` has already succeeded; what remains is pure manipulation of the
header list of the freshly built `http::Request`.  A header is a
(name, value) pair; `http::HeaderMap` is case-insensitive on names. -/

/-- A parsed header: name and value. -/
abbrev Header := List Char × List Char

/-- Case-insensitive header-name equality (`http::HeaderMap` semantics). -/
def headerEq (a b : List Char) : Bool :=
  to_ascii_lowercase a == to_ascii_lowercase b

/-- `HeaderMap::get(name)`: the first value stored under the name. -/
def getHeader (headers : List Header) (name : List Char) : Option (List Char) :=
  (headers.find? (fun h => headerEq h.1 name)).map Prod.snd

/-- `HeaderMap::remove(name)`: drops every value stored under the name and
returns the first one. -/
def removeHeader (headers : List Header) (name : List Char) :
    Option (List Char) × List Header :=
  (getHeader headers name, headers.filter (fun h => !headerEq h.1 name))

/-- `HeaderValue::to_str()`: succeeds only when every byte is visible ASCII
or space. -/
def header_value_to_str (v : List Char) : Option (List Char) :=
  if v.all (fun c => 32 ≤ c.toNat && c.toNat ≤ 126) then some v else none

/-- The body shape chosen for an HTTP/1.1 request: `RecvBody::Http11Chunked`
or `RecvBody::Http11Plain(LimitRead::new(_, content_length))`. -/
inductive BodyMode where
  | chunked : BodyMode
  | plain : Nat → BodyMode
deriving DecidableEq

/-- The header normalization of `parse_http11` (http11.rs lines 55–77):
remove `Transfer-Encoding` (selecting chunked mode when its whole value,
ASCII-lowercased, equals `"chunked"`), then read `Content-Length`
(defaulting to `0` whenever absent or unparseable).  This region of the
source has no error path. -/
def normalize_http11 (headers : List Header) : List Header × BodyMode :=
  let removed := removeHeader headers (str "transfer-encoding")
  let recv_chunked := match removed.1 with
    | some h =>
      to_ascii_lowercase ((header_value_to_str h).getD []) == str "chunked"
    | none => false
  let content_len :=
    (((getHeader removed.2 (str "content-length")).bind
        header_value_to_str).bind parse_usize_dec).getD 0
  (removed.2, if recv_chunked then BodyMode.chunked else BodyMode.plain content_len)

/-- Modelled from the spec: "Reads `Transfer-Encoding`: strips it, and if
the last token equals `chunked` selects chunked body mode" — the last
comma-separated token of the header value, with surrounding whitespace
trimmed.  Used only to compare the selection rule of the spec against the
rule of the source (`normalize_http11`). -/
def spec_last_token (v : List Char) : List Char :=
  trim_chars ((v.splitOn ',').getLastD [])

/-! ## `src/service.rs` — registry and routing, `src/serv_auth.rs` — preauth -/

/-- `ServiceAuth` (service.rs lines 36–40). -/
inductive ServiceAuth where
  | PreSharedSecret : List Char → ServiceAuth
deriving DecidableEq

/-- Stand-in for the opaque `acme_lib::Certificate`. -/
structure Certificate where
deriving DecidableEq

/-- `ServiceRoute` (service.rs lines 57–65).  `pfx` models the source field
named `prefix`.  A weak connection reference is `some id` when it upgrades
(the driver task still holds the strong `Arc`) and `none` when dead. -/
structure ServiceRoute where
  pfx : List Char
  connections : List (Option Nat)
deriving DecidableEq

/-- `ServiceHost` (service.rs lines 45–54). -/
structure ServiceHost where
  host : List Char
  cert : Option Certificate
  routes : List ServiceRoute
deriving DecidableEq

/-- `ServiceDomain` (service.rs lines 24–33). -/
structure ServiceDomain where
  domain : List Char
  auth : ServiceAuth
  hosts : List ServiceHost
deriving DecidableEq

/-- `Services` (service.rs lines 18–21). -/
structure Services where
  domains : List ServiceDomain
deriving DecidableEq

/-- The sort key of `domains.sort_by_key(|d| d.domain.len())`. -/
def domainLe (a b : ServiceDomain) : Prop :=
  a.domain.length ≤ b.domain.length

instance : DecidableRel domainLe := fun a b => Nat.decLe a.domain.length b.domain.length

instance : IsTotal ServiceDomain domainLe := ⟨fun a b => Nat.le_total a.domain.length b.domain.length⟩

instance : IsTrans ServiceDomain domainLe := ⟨fun _ _ _ => Nat.le_trans⟩

/-- The sort key of `routes.sort_by_key(|r| r.prefix.len())`. -/
def routeLe (a b : ServiceRoute) : Prop :=
  a.pfx.length ≤ b.pfx.length

instance : DecidableRel routeLe := fun a b => Nat.decLe a.pfx.length b.pfx.length

instance : IsTotal ServiceRoute routeLe := ⟨fun a b => Nat.le_total a.pfx.length b.pfx.length⟩

instance : IsTrans ServiceRoute routeLe := ⟨fun _ _ _ => Nat.le_trans⟩

/-- Domain selection in `Services::route` (service.rs lines 156–166):
filter on `s.domain.ends_with(host)` — exactly as written in the source —
then a stable ascending sort by domain length (`Vec::sort_by_key` is
stable, as is `List.insertionSort`) and `last_mut()`. -/
def Services.selectDomain (s : Services) (host : List Char) :
    Option ServiceDomain :=
  (List.insertionSort domainLe
    (s.domains.filter (fun d => ends_with d.domain host))).getLast?

/-- Route selection within a host (service.rs lines 171–180): keep routes
whose `prefix` the request path starts with, stable-sort ascending by
prefix length, take the last. -/
def ServiceHost.selectRoute (h : ServiceHost) (path : List Char) :
    Option ServiceRoute :=
  (List.insertionSort routeLe
    (h.routes.filter (fun r => starts_with path r.pfx))).getLast?

/-- The connection-picking loop (service.rs lines 184–205): prune dead weak
references, fail when none remain, otherwise clone out of the first live
one. -/
def ServiceRoute.firstConn (r : ServiceRoute) : Option Nat :=
  let retained := r.connections.filter (fun c => c.isSome)
  if retained.isEmpty then none
  else match retained.find? (fun c => c.isSome) with
    | some c => c
    | none => none

/-- The slice of an `http::Request` that `Services::route` consumes:
`uri.authority_part()` and `uri.path_and_query().map(path)`. -/
structure Request where
  authority : Option (List Char)
  path : Option (List Char)
deriving DecidableEq

/-- `Services::route` (service.rs lines 151–208). -/
def Services.route (s : Services) (req : Request) : Option Nat := do
  let host ← req.authority
  let path := req.path.getD (str "/")
  let domain ← s.selectDomain host
  let h ← domain.hosts.find? (fun hh => hh.host == host)
  let r ← h.selectRoute path
  r.firstConn

/-- `PreAuthed` (serv_auth.rs lines 12–18).  `created` is unix-time
milliseconds; `pfx` models the source field named `prefix`. -/
structure PreAuthed where
  created : Nat
  domain : List Char
  host : List Char
  pfx : List Char
deriving DecidableEq

/-- `PreAuthed::is_valid` (serv_auth.rs lines 24–27) with
`current_time_millis()` passed explicitly: the age of the record must be
strictly below 10 seconds. -/
def PreAuthed.is_valid (now_millis : Nat) (p : PreAuthed) : Bool :=
  decide (now_millis - p.created < 10000)

/-- `ServiceRoute::add_connection` (service.rs lines 251–253). -/
def ServiceRoute.add_connection (r : ServiceRoute) (c : Option Nat) :
    ServiceRoute :=
  { r with connections := r.connections ++ [c] }

/-- `ServiceHost::add_preauthed` (service.rs lines 233–241): find or append
the route keyed by the prefix of the record, then push the connection. -/
def ServiceHost.add_preauthed (h : ServiceHost) (p : PreAuthed)
    (c : Option Nat) : ServiceHost :=
  match h.routes.findIdx? (fun r => p.pfx == r.pfx) with
  | some i => { h with routes := h.routes.modify (·.add_connection c) i }
  | none =>
    { h with routes := h.routes ++ [{ pfx := p.pfx, connections := [c] }] }

/-- `ServiceDomain::add_preauthed` (service.rs lines 213–221): find or
append (`ServiceHost::new`) the host named in the record. -/
def ServiceDomain.add_preauthed (d : ServiceDomain) (p : PreAuthed)
    (c : Option Nat) : ServiceDomain :=
  match d.hosts.findIdx? (fun hh => p.host == hh.host) with
  | some i => { d with hosts := d.hosts.modify (·.add_preauthed p c) i }
  | none =>
    { d with hosts := d.hosts ++
        [ServiceHost.add_preauthed { host := p.host, cert := none, routes := [] } p c] }

/-- `Services::add_preauthed` (service.rs lines 139–148).  `none` models the
`expect("Preauthed for not configured domain")` panic. -/
def Services.add_preauthed (s : Services) (p : PreAuthed) (c : Option Nat) :
    Option Services :=
  match s.domains.findIdx? (fun d => p.domain == d.domain) with
  | some i => some { s with domains := s.domains.modify (·.add_preauthed p c) i }
  | none => none

/-! ## `src/persist.rs` — preauth storage, `src/lib.rs` — dispatcher -/

/-- The abstract key-value store behind the `Persist` trait, restricted to
the `ReconnectKey(u64)` partition. -/
abbrev Store := List (Nat × PreAuthed)

/-- Looking a key up in the store. -/
def store_lookup (st : Store) (k : Nat) : Option PreAuthed :=
  (st.find? (fun e => e.1 == k)).map Prod.snd

/-- `load_preauthed` (persist.rs lines 57–67): issues a single
`Persist::load` — the same read-only operation the ACME `get` bridge uses —
deserializes the value, and leaves the store untouched.  Returns the loaded
record and the store afterwards. -/
def load_preauthed (st : Store) (k : Nat) : Option PreAuthed × Store :=
  (store_lookup st k, st)

/-- `PREAUTH_LEN` (service.rs line 14). -/
def PREAUTH_LEN : Nat := 12

/-- The source constant holding the preauth marker, `b"lolb"` (service.rs line 15). -/
def PREAUTH_PFX : List Nat := [108, 111, 108, 98]

/-- `Cursor::get_u64_be` over the 8 key bytes. -/
def be_u64 (bs : List Nat) : Nat :=
  bs.foldl (fun acc b => acc * 256 + b) 0

/-- Errors of `handle_incoming` (`LolbError::Message` / `LolbError::Owned`;
panics are modelled as `Owned` values tagged "panic:"). -/
inductive LolbErr where
  | Message : String → LolbErr
  | Owned : String → LolbErr
deriving DecidableEq

instance {ε α : Type} [DecidableEq ε] [DecidableEq α] :
    DecidableEq (Except ε α) := fun a b =>
  match a, b with
  | Except.error e1, Except.error e2 =>
    if h : e1 = e2 then isTrue (by rw [h])
    else isFalse (fun hc => h (by injection hc))
  | Except.error _, Except.ok _ => isFalse (fun hc => Except.noConfusion hc)
  | Except.ok _, Except.error _ => isFalse (fun hc => Except.noConfusion hc)
  | Except.ok v1, Except.ok v2 =>
    if h : v1 = v2 then isTrue (by rw [h])
    else isFalse (fun hc => h (by injection hc))

/-- How the dispatcher leaves a connection. `upstream s rest`: the preauth
was redeemed, the HTTP/2 client handshake begins on `rest`, and the
registry is now `s`.  `client readable`: the connection falls through to
`handle_client`, whose subsequent reads will yield `readable`. -/
inductive Dispatched where
  | upstream : Services → List Nat → Dispatched
  | client : List Nat → Dispatched
deriving DecidableEq

/-- `handle_incoming` (lib.rs lines 81–137) together with the registration
step of `add_preauthed_service` (lib.rs lines 139–173): peek 12 bytes with
a never-satisfied `is_enough`; on a `lolb` prefix, redeem the big-endian
key against the store and, when a record exists, consume the 12 bytes with
one read and register the new upstream connection `connId`; otherwise fall
through to client handling with the peeked bytes still buffered. -/
def handle_incoming (services : Services) (st : Store) (stream : List Nat)
    (connId : Nat) : Except LolbErr (Dispatched × Store) :=
  let conn : Peekable := { wrapped := stream, buffered := [] }
  let pr := conn.peek PREAUTH_LEN (fun _ => false)
  if pr.1.length < PREAUTH_LEN then
    Except.error (LolbErr.Owned "Stream ended when fewer bytes peeked for preauth.")
  else if pr.1.take 4 == PREAUTH_PFX then
    let n := be_u64 (pr.1.drop 4)
    let loaded := load_preauthed st n
    match loaded.1 with
    | some authed =>
      let rd := pr.2.poll_read PREAUTH_LEN
      if rd.1.length < PREAUTH_LEN then
        Except.error (LolbErr.Owned "panic: Discarded less than peeked length of preauth")
      else
        match services.add_preauthed authed (some connId) with
        | some services2 =>
          Except.ok (Dispatched.upstream services2 (rd.2.buffered ++ rd.2.wrapped),
            loaded.2)
        | none =>
          Except.error (LolbErr.Owned "panic: Preauthed for not configured domain")
    | none => Except.error (LolbErr.Message "No preauth for incoming lolb prefix")
  else
    Except.ok (Dispatched.client (pr.2.buffered ++ pr.2.wrapped), st)

/-! ## `src/lib.rs` — the HTTP/2 stream loop of `handle_client` -/

/-- `PATH_NODE_REGISTER` (lib.rs line 39). -/
def PATH_NODE_REGISTER : List Char := str "/__lolb_node_register"

/-- `is_service_auth` (lib.rs lines 250–259): the request path equals the
registration path. -/
def is_service_auth (path : List Char) : Bool :=
  path == PATH_NODE_REGISTER

/-- The HTTP/2 stream loop of `handle_client` (lib.rs lines 211–233),
applied to the paths of the streams the connection delivers in order.
Returns the paths handed to `request_to_service` (i.e. routed as ordinary
client requests).  `check_service_auth` starts `true`; the first stream
resets it, and a first-stream service-auth request ends the loop. -/
def handle_client_streams (check_service_auth : Bool) :
    List (List Char) → List (List Char)
  | [] => []
  | p :: rest =>
    if check_service_auth && is_service_auth p then []
    else p :: handle_client_streams false rest

/-! ## Concrete instances used by witnesses and counterexamples -/

/-- A preshared secret for demo registries. -/
def demoAuth : ServiceAuth := ServiceAuth.PreSharedSecret (str "secret")

/-- Demo route constructor. -/
def mkRoute (p : List Char) (cs : List (Option Nat)) : ServiceRoute :=
  { pfx := p, connections := cs }

/-- Demo host constructor (no certificate). -/
def mkHost (h : List Char) (rs : List ServiceRoute) : ServiceHost :=
  { host := h, cert := none, routes := rs }

/-- Demo domain constructor (preshared-secret auth). -/
def mkDomain (d : List Char) (hs : List ServiceHost) : ServiceDomain :=
  { domain := d, auth := demoAuth, hosts := hs }

/-- Registry for claim C1: one configured domain `example.com` with host
`svc.example.com`, route `/`, and one live upstream. -/
def c1services : Services :=
  { domains := [mkDomain (str "example.com")
      [mkHost (str "svc.example.com") [mkRoute (str "/") [some 1]]]] }

/-- Registry before a preauth redemption: domain `example.com`, host
`svc.example.com`, route `/`, no connections yet. -/
def preauthServices : Services :=
  { domains := [mkDomain (str "example.com")
      [mkHost (str "svc.example.com") [mkRoute (str "/") []]]] }

/-- `preauthServices` after registering upstream connection `7` under
(`example.com`, `svc.example.com`, `/`). -/
def preauthServicesAfter : Services :=
  { domains := [mkDomain (str "example.com")
      [mkHost (str "svc.example.com") [mkRoute (str "/") [some 7]]]] }

/-- A fresh preauth record (created at 1 s unix time). -/
def c4preauth : PreAuthed :=
  { created := 1000, domain := str "example.com",
    host := str "svc.example.com", pfx := str "/" }

/-- A preauth record created at unix time 0; at `now = 11000` ms it is
11 s old, beyond the 10 s validity window. -/
def c5preauth : PreAuthed :=
  { created := 0, domain := str "example.com",
    host := str "svc.example.com", pfx := str "/" }

/-- Store holding the fresh record under key `5`. -/
def c4store : Store := [(5, c4preauth)]

/-- Store holding the expired record under key `5`. -/
def c5store : Store := [(5, c5preauth)]

/-- A reconnect: `"lolb"`, the 8-byte big-endian key `5`, then the first
bytes the HTTP/2 client preface would continue with. -/
def preauthStream : List Nat :=
  PREAUTH_PFX ++ [0, 0, 0, 0, 0, 0, 0, 5] ++ [80, 82, 73]

/-- The `/` route of the claim C9 witness registry. -/
def c9routeSlash : ServiceRoute := mkRoute (str "/") [some 2]

/-- The `/api` route of the claim C9 witness registry. -/
def c9routeApi : ServiceRoute := mkRoute (str "/api") [some 1]

/-- The host of the claim C9 witness registry. -/
def c9host : ServiceHost := mkHost (str "example.com") [c9routeSlash, c9routeApi]

/-- The domain of the claim C9 witness registry. -/
def c9domain : ServiceDomain := mkDomain (str "example.com") [c9host]

/-- The claim C9 witness registry. -/
def c9services : Services := { domains := [c9domain] }

/-- Headers for the claim C6 witness: a host header and a plain `chunked`
transfer-encoding. -/
def c6headers : List Header :=
  [(str "host", str "x.example"), (str "transfer-encoding", str "chunked")]

/-- Headers for the claim C7 witness: a malformed Content-Length. -/
def c7headers : List Header := [(str "content-length", str "abc")]

/-! ## Helper lemmas -/

/-- The fill loop is a no-op once `total` has reached the target. -/
theorem peekFill_ge (e : List Nat → Bool) (fuel : Nat) (w b : List Nat)
    (total n : Nat) (h : ¬ total < n) :
    peekFill e fuel w b total n = (w, b, total) := by
  cases fuel with
  | zero => rfl
  | succ f => simp [peekFill, h]

/-- Writing a slice as long as the whole buffer at offset 0 replaces the
buffer. -/
theorem setRange_zero_eq (b src : List Nat) (h : src.length = b.length) :
    setRange b 0 src = src := by
  unfold setRange
  rw [List.take_zero, List.nil_append, List.drop_eq_nil_of_le (by omega),
    List.append_nil]

/-- A peek of `n` bytes on a fresh connection whose stream holds at least
`n` bytes returns exactly the first `n` bytes and leaves them buffered. -/
theorem peek_fresh (stream : List Nat) (n : Nat) (h0 : 0 < n)
    (h : n ≤ stream.length) :
    Peekable.peek { wrapped := stream, buffered := [] } n (fun _ => false) =
      (stream.take n,
        { wrapped := stream.drop n, buffered := stream.take n }) := by
  have hlen : (stream.take n).length = n := by
    rw [List.length_take]; omega
  have hfill : peekFill (fun _ => false) (n + 1) stream (List.replicate n 0)
      0 n = (stream.drop n, stream.take n, n) := by
    rw [peekFill]
    simp only [Nat.sub_zero, if_pos h0, hlen, Nat.zero_add]
    rw [if_neg (by omega), setRange_zero_eq _ _ (by simp [hlen]), if_neg (by simp)]
    exact peekFill_ge _ n _ _ n n (by omega)
  unfold Peekable.peek
  simp only [List.length_nil, if_pos h0, Nat.sub_zero, List.nil_append, hfill]
  rw [List.take_of_length_le (by omega)]

/-- Draining a buffer of exactly `n` bytes with one `poll_read` of `n`
bytes yields the buffer and empties it. -/
theorem poll_read_full (w b : List Nat) (n : Nat) (hb : b.length = n)
    (h0 : 0 < n) :
    Peekable.poll_read { wrapped := w, buffered := b } n =
      (b, { wrapped := w, buffered := [] }) := by
  have hne : b.isEmpty = false := by
    cases b with
    | nil => simp at hb; omega
    | cons x xs => rfl
  unfold Peekable.poll_read
  simp only [hne, Bool.false_eq_true, if_false, hb, Nat.min_self]
  rw [List.take_of_length_le (by omega), List.drop_eq_nil_of_le (by omega)]

/-- With the check flag cleared, every stream of the HTTP/2 loop is routed. -/
theorem handle_client_streams_flag_cleared (ps : List (List Char)) :
    handle_client_streams false ps = ps := by
  induction ps with
  | nil => rfl
  | cons p rest ih => simp [handle_client_streams, ih]

/-- `getLast? = some` implies membership. -/
theorem getLast?_some_mem {α : Type} (l : List α) (m : α)
    (h : l.getLast? = some m) : m ∈ l := by
  have hm : m ∈ l.getLast? := by rw [h]; exact rfl
  obtain ⟨hne, heq⟩ := List.mem_getLast?_eq_getLast hm
  subst heq
  exact List.getLast_mem hne

/-- In a list sorted by a reflexive relation, every element is related to
the last element. -/
theorem sorted_getLast?_greatest {α : Type} {r : α → α → Prop}
    (hrefl : ∀ a, r a a) :
    ∀ (l : List α), List.Sorted r l → ∀ m, l.getLast? = some m →
      ∀ a ∈ l, r a m
  | [] => by
    intro _ m hm
    simp at hm
  | x :: t => by
    intro hs m hm a ha
    cases t with
    | nil =>
      simp only [List.getLast?_singleton, Option.some.injEq] at hm
      rcases List.mem_singleton.mp ha with rfl
      rw [← hm]
      exact hrefl a
    | cons y t2 =>
      rw [List.getLast?_cons_cons] at hm
      have hcons := List.sorted_cons.mp hs
      rcases List.mem_cons.mp ha with rfl | ha2
      · exact hcons.1 m (getLast?_some_mem _ _ hm)
      · exact sorted_getLast?_greatest hrefl (y :: t2) hcons.2 m hm a ha2

/-! ## Claims -/

/-- Claim C1: the spec says `Services::route` picks a configured domain
whose name is a suffix of the request host, so host `svc.example.com`
matches domain `example.com`.  The source filters with
`s.domain.ends_with(host)` — the reverse direction, contradicting the
comment right above it ("`a.b.c.com` might match `b.c.com` and `c.com`") —
so a host strictly under a configured domain matches no domain: with
`example.com` configured (host `svc.example.com`, route `/`, one live
upstream), routing a request for host `svc.example.com` yields `none` even
though the domain is a suffix of the host. -/
theorem c1_subdomain_host_not_routed :
    ends_with (str "svc.example.com") (str "example.com") = true
    ∧ Services.route c1services
        { authority := some (str "svc.example.com"),
          path := some (str "/") } = none := by
  exact ⟨by decide, by decide⟩

/-- Claim C2: the spec says `ChunkedEncoder::send_chunk` writes the chunk
length in hexadecimal and that encoder output decodes back to the chunk
concatenation.  The source writes `format!("{}\r\n", buf.len())` — decimal
— while `ChunkedDecoder` parses the size as hexadecimal, so the round trip
breaks at the first chunk of length ≥ 10: a single 10-byte chunk is framed
as `"10\r\n"` (bytes `[49, 48, 13, 10]`; hex framing would be `"a"`), the
decoder reads 0x10 = 16 payload bytes, and decoding fails instead of
returning the 10 bytes. -/
theorem c2_decimal_framing_breaks_roundtrip :
    send_chunk (List.replicate 10 65) =
      [49, 48, 13, 10] ++ List.replicate 10 65 ++ [13, 10]
    ∧ decode (encode [List.replicate 10 65]) = none := by
  exact ⟨by decide, by decide⟩

/-- Claim C3: the spec says bytes returned by a read after a peek are
exactly the bytes a fresh read would have returned, also when the stream
ends before `n` bytes are buffered.  `Peekable::peek` resizes the internal
buffer to `n` with `0x0` fill and never truncates it back to the byte count
actually read, so after peeking 4 bytes from a 2-byte stream (`peek`
correctly reports 2 bytes), a subsequent read returns `[104, 105, 0, 0]` —
two zero bytes that never came from the stream — where a fresh read
returns `[104, 105]`. -/
theorem c3_short_peek_fabricates_zero_bytes :
    (Peekable.poll_read { wrapped := [104, 105], buffered := [] } 4).1 =
      [104, 105]
    ∧ (Peekable.peek { wrapped := [104, 105], buffered := [] } 4
        (fun _ => false)).1 = [104, 105]
    ∧ (Peekable.poll_read
        (Peekable.peek { wrapped := [104, 105], buffered := [] } 4
          (fun _ => false)).2 4).1 = [104, 105, 0, 0] := by
  exact ⟨rfl, rfl, rfl⟩

/-- Claim C4: the spec says `load_preauthed` consumes the stored record as
it loads it, so a redeemed key is afterwards absent from storage.  The
source only issues the read-only `Persist::load` (the same operation the
ACME `get` bridge uses) and nothing in the redemption path removes the
record: a successful redemption of key 5 returns the store unchanged, the
key is still present, and a second load (hence a second redemption of the
identical connection bytes) yields the same record again. -/
theorem c4_reconnect_key_not_consumed :
    handle_incoming preauthServices c4store preauthStream 7 =
      Except.ok (Dispatched.upstream preauthServicesAfter [80, 82, 73], c4store)
    ∧ load_preauthed c4store 5 = (some c4preauth, c4store)
    ∧ store_lookup c4store 5 = some c4preauth := by
  exact ⟨by decide, by decide, by decide⟩

/-- Claim C5: the spec says a `Preauthed` record aged ≥ 10 s is rejected at
redemption even when still present in storage.  `PreAuthed::is_valid`
encodes exactly that window but is never called: `handle_incoming` redeems
whatever record the store returns, so a record created at unix time 0 and
redeemed at 11000 ms (`is_valid` = false) is still registered as an
upstream under (`example.com`, `svc.example.com`, `/`). -/
theorem c5_expired_preauth_still_registered :
    PreAuthed.is_valid 11000 c5preauth = false
    ∧ handle_incoming preauthServices c5store preauthStream 7 =
        Except.ok (Dispatched.upstream preauthServicesAfter [80, 82, 73],
          c5store) := by
  exact ⟨by decide, by decide⟩

/-- Claim C6 (counterexample): the claim says chunked mode is selected iff
the LAST TOKEN of the Transfer-Encoding value equals `chunked`, so
`gzip, chunked` selects chunked mode.  The source compares the WHOLE
lowercased value against `"chunked"`, so `gzip, chunked` — whose last
token is `chunked` — selects plain mode. -/
theorem c6_last_token_counterexample :
    spec_last_token (str "gzip, chunked") = str "chunked"
    ∧ (normalize_http11 [(str "transfer-encoding", str "gzip, chunked")]).2 ≠
        BodyMode.chunked := by
  exact ⟨by decide, by decide⟩

/-- Claim C6 (amended): for every successfully parsed HTTP/1.1 request the
Transfer-Encoding header is absent from the normalized request (the name of every
remaining header differs from it case-insensitively), and chunked
body mode is selected if and only if the whole Transfer-Encoding value,
ASCII-lowercased (an unreadable value counting as the empty string),
equals `chunked` — not merely its last token. -/
theorem c6_te_stripped_and_whole_value_selects_chunked
    (headers : List Header) :
    (∀ hd2 ∈ (normalize_http11 headers).1,
      headerEq hd2.1 (str "transfer-encoding") = false)
    ∧ ((normalize_http11 headers).2 = BodyMode.chunked ↔
        (getHeader headers (str "transfer-encoding")).map
          (fun v => to_ascii_lowercase ((header_value_to_str v).getD [])) =
          some (str "chunked")) := by
  constructor
  · intro hd2 hmem
    have h1 : (normalize_http11 headers).1 =
        headers.filter (fun h => !headerEq h.1 (str "transfer-encoding")) := rfl
    rw [h1] at hmem
    have h2 := (List.mem_filter.mp hmem).2
    simpa using h2
  · cases hte : getHeader headers (str "transfer-encoding") with
    | none => simp [normalize_http11, removeHeader, hte]
    | some v =>
      by_cases hv :
          to_ascii_lowercase ((header_value_to_str v).getD []) = str "chunked"
      · simp [normalize_http11, removeHeader, hte, hv]
      · simp [normalize_http11, removeHeader, hte, hv]

/-- Claim C6 (witness): instantiating the amended claim at a demo header
list whose Transfer-Encoding value is exactly `chunked`: the surviving host
header is not a Transfer-Encoding header, and — through the right-to-left
direction of the selection iff — chunked mode is selected. -/
theorem c6_whole_value_chunked_witness :
    headerEq (str "host", str "x.example").1 (str "transfer-encoding") = false
    ∧ (normalize_http11 c6headers).2 = BodyMode.chunked := by
  have h := c6_te_stripped_and_whole_value_selects_chunked c6headers
  exact ⟨h.1 (str "host", str "x.example") (by decide), h.2.mpr (by decide)⟩

/-- Claim C7 (counterexample): the claim says a present but non-numeric
Content-Length makes parsing fail with a parse error.  The code pattern
`.and_then(|s| s.parse::<usize>().ok()).unwrap_or(0)` silently substitutes
0: normalizing a request whose only header is `Content-Length: 12x`
succeeds, with a plain body of length 0. -/
theorem c7_malformed_content_length_counterexample :
    normalize_http11 [(str "content-length", str "12x")] =
      ([(str "content-length", str "12x")], BodyMode.plain 0) := by
  decide

/-- Claim C7 (amended): for every parsed request without Transfer-Encoding
whose Content-Length value is present but does not parse as a `usize`,
normalization succeeds and selects a plain body of length 0 — the default
substituted for the malformed value — rather than failing with a parse
error. -/
theorem c7_malformed_content_length_defaults_to_zero
    (headers : List Header) (v : List Char)
    (hTE : getHeader headers (str "transfer-encoding") = none)
    (hCL : getHeader headers (str "content-length") = some v)
    (hbad : (header_value_to_str v).bind parse_usize_dec = none) :
    normalize_http11 headers = (headers, BodyMode.plain 0) := by
  have hfind : headers.find? (fun h => headerEq h.1 (str "transfer-encoding"))
      = none := by
    cases hf : headers.find? (fun h => headerEq h.1 (str "transfer-encoding")) with
    | none => rfl
    | some x => rw [getHeader, hf] at hTE; simp at hTE
  have hfil : headers.filter (fun h => !headerEq h.1 (str "transfer-encoding"))
      = headers := by
    refine List.filter_eq_self.mpr ?_
    intro a ha
    have hno := List.find?_eq_none.mp hfind a ha
    simpa using hno
  simp only [normalize_http11, removeHeader, hTE, hfil, hCL, Option.some_bind,
    hbad, Option.getD_none]
  rfl

/-- Claim C7 (witness): instantiating the amended claim at a demo header
list with `Content-Length: abc`. -/
theorem c7_defaults_to_zero_witness :
    normalize_http11 c7headers = (c7headers, BodyMode.plain 0) :=
  c7_malformed_content_length_defaults_to_zero c7headers (str "abc")
    (by decide) (by decide) (by decide)

/-- Claim C10: in the HTTP/2 loop of `handle_client` the
`check_service_auth` flag is true only for the first accepted stream, so a
`/__lolb_node_register` request on any later stream is not treated as
service authentication: unless the FIRST stream is a service-auth request
(which ends the loop), every stream — whatever its path, including the
registration path — is handed to `request_to_service` like an ordinary
client request. -/
theorem c10_only_first_stream_checked_for_service_auth
    (first : List Char) (rest : List (List Char)) :
    handle_client_streams true (first :: rest) =
      if is_service_auth first then [] else first :: rest := by
  by_cases h : is_service_auth first
  · simp [handle_client_streams, h]
  · simp [handle_client_streams, h, handle_client_streams_flag_cleared]

/-- Claim C8: for every connection whose stream holds at least the 12
preauth bytes — when the first 4 bytes are `lolb` and the big-endian key in
bytes 4–12 is in the store, the dispatcher consumes exactly those 12 bytes
(the HTTP/2 client handshake starts on `stream.drop PREAUTH_LEN`) and
registers the upstream; when the prefix is `lolb` but no record matches,
the connection is rejected with the framing-protocol error
(`LolbError::Message("No preauth for incoming lolb prefix")`); for any
other prefix no bytes are consumed and client handling sees the entire
stream, peeked bytes included. -/
theorem c8_dispatch_on_preauth_marker (svc : Services) (st : Store)
    (stream : List Nat) (connId : Nat)
    (hlen : PREAUTH_LEN ≤ stream.length) :
    (stream.take 4 = PREAUTH_PFX →
      (∀ p svc2,
        store_lookup st (be_u64 ((stream.take PREAUTH_LEN).drop 4)) = some p →
        svc.add_preauthed p (some connId) = some svc2 →
        handle_incoming svc st stream connId =
          Except.ok (Dispatched.upstream svc2 (stream.drop PREAUTH_LEN), st))
      ∧ (store_lookup st (be_u64 ((stream.take PREAUTH_LEN).drop 4)) = none →
        handle_incoming svc st stream connId =
          Except.error (LolbErr.Message "No preauth for incoming lolb prefix")))
    ∧ (stream.take 4 ≠ PREAUTH_PFX →
      handle_incoming svc st stream connId =
        Except.ok (Dispatched.client stream, st)) := by
  have h0 : 0 < PREAUTH_LEN := by decide
  have hpeek := peek_fresh stream PREAUTH_LEN h0 hlen
  have hlen12 : (stream.take PREAUTH_LEN).length = PREAUTH_LEN := by
    rw [List.length_take]; omega
  have htake4 : (stream.take PREAUTH_LEN).take 4 = stream.take 4 := by
    rw [List.take_take]
    simp [PREAUTH_LEN]
  have hpoll := poll_read_full (stream.drop PREAUTH_LEN)
    (stream.take PREAUTH_LEN) PREAUTH_LEN hlen12 h0
  refine ⟨fun hpfx => ?_, fun hpfx => ?_⟩
  · have hbeq : ((stream.take PREAUTH_LEN).take 4 == PREAUTH_PFX) = true := by
      rw [htake4, hpfx]
      exact beq_self_eq_true _
    constructor
    · intro p svc2 hlook hadd
      simp only [handle_incoming, hpeek, hlen12, lt_self_iff_false, if_false,
        hbeq, if_true, load_preauthed, hlook, hpoll, hadd, List.nil_append]
    · intro hlook
      simp only [handle_incoming, hpeek, hlen12, lt_self_iff_false, if_false,
        hbeq, if_true, load_preauthed, hlook]
  · have hbeq : ((stream.take PREAUTH_LEN).take 4 == PREAUTH_PFX) = false := by
      rw [htake4]
      exact beq_eq_false_iff_ne.mpr hpfx
    simp only [handle_incoming, hpeek, hlen12, lt_self_iff_false,
      Bool.false_eq_true, if_false, hbeq, List.take_append_drop]

/-- Claim C8 (witness): the three dispatch branches at concrete inputs — a
redeeming reconnect, a `lolb` prefix with an empty store, and an ordinary
`GET ` request line of 12 bytes. -/
theorem c8_dispatch_witness :
    handle_incoming preauthServices c4store preauthStream 7 =
      Except.ok (Dispatched.upstream preauthServicesAfter
        (preauthStream.drop PREAUTH_LEN), c4store)
    ∧ handle_incoming preauthServices [] preauthStream 7 =
        Except.error (LolbErr.Message "No preauth for incoming lolb prefix")
    ∧ handle_incoming preauthServices c4store
        ([71, 69, 84, 32] ++ List.replicate 8 47) 7 =
        Except.ok (Dispatched.client ([71, 69, 84, 32] ++ List.replicate 8 47),
          c4store) := by
  refine ⟨?_, ?_, ?_⟩
  · exact ((c8_dispatch_on_preauth_marker preauthServices c4store preauthStream
      7 (by decide)).1 (by decide)).1 c4preauth preauthServicesAfter
      (by decide) (by decide)
  · exact ((c8_dispatch_on_preauth_marker preauthServices [] preauthStream
      7 (by decide)).1 (by decide)).2 (by decide)
  · exact (c8_dispatch_on_preauth_marker preauthServices c4store
      ([71, 69, 84, 32] ++ List.replicate 8 47) 7 (by decide)).2 (by decide)

/-- Claim C9: whenever `Services::route` returns a connection, the route it
was taken from is a candidate (its prefix starts the request path) of the
exactly-matching host, its prefix length is maximal among all candidates —
witnessed against an arbitrary candidate `r2` — and the returned connection
is the one `firstConn` picks from that route. -/
theorem c9_route_prefix_length_maximal (s : Services) (host path : List Char)
    (c : Nat) (d : ServiceDomain) (hst : ServiceHost) (rt r2 : ServiceRoute)
    (hd : s.selectDomain host = some d)
    (hh : d.hosts.find? (fun x => x.host == host) = some hst)
    (hrt : hst.selectRoute path = some rt)
    (hr : s.route { authority := some host, path := some path } = some c)
    (hmem : r2 ∈ hst.routes) (hsw : starts_with path r2.pfx = true) :
    rt ∈ hst.routes ∧ starts_with path rt.pfx = true
    ∧ r2.pfx.length ≤ rt.pfx.length
    ∧ rt.firstConn = some c := by
  have hfc : rt.firstConn = some c := by
    simp only [Services.route, Option.getD_some, hd, hh, hrt, Option.some_bind,
      bind, Option.bind] at hr
    exact hr
  have hrt2 : (List.insertionSort routeLe
      (hst.routes.filter (fun r => starts_with path r.pfx))).getLast? =
      some rt := hrt
  have hperm := List.perm_insertionSort routeLe
    (hst.routes.filter (fun r => starts_with path r.pfx))
  have hsorted := List.sorted_insertionSort routeLe
    (hst.routes.filter (fun r => starts_with path r.pfx))
  have hmemS := getLast?_some_mem _ _ hrt2
  have hmemF := hperm.mem_iff.mp hmemS
  obtain ⟨hrtmem, hrtsw⟩ := List.mem_filter.mp hmemF
  have hr2F : r2 ∈ hst.routes.filter (fun r => starts_with path r.pfx) :=
    List.mem_filter.mpr ⟨hmem, hsw⟩
  have hr2S := hperm.mem_iff.mpr hr2F
  have hle := sorted_getLast?_greatest (r := routeLe)
    (fun a => Nat.le_refl a.pfx.length) _ hsorted rt hrt2 r2 hr2S
  exact ⟨hrtmem, hrtsw, hle, hfc⟩

/-- Claim C9 (witness): in a registry with routes `/` and `/api` under host
`example.com`, a request for path `/api/v1` routes to upstream 1, taken
from `/api`, whose prefix is no shorter than the other candidate `/`. -/
theorem c9_route_witness :
    c9routeApi ∈ c9host.routes
    ∧ starts_with (str "/api/v1") c9routeApi.pfx = true
    ∧ c9routeSlash.pfx.length ≤ c9routeApi.pfx.length
    ∧ c9routeApi.firstConn = some 1 :=
  c9_route_prefix_length_maximal c9services (str "example.com")
    (str "/api/v1") 1 c9domain c9host c9routeApi c9routeSlash
    (by decide) (by decide) (by decide) (by decide) (by decide) (by decide)

end Lolb
